import Mathlib

/-!
Verification development for the notifelect repository.

notifelect elects a single leader among peer processes sharing a PostgreSQL
database: each peer obtains a unique sequence number from a database counter,
periodically publishes a `Ping` on a shared NOTIFY/LISTEN channel, collects the
`Pong` responses in a ballot list, and declares itself leader when the highest
sequence among the collected Pongs equals its own.

The definitions below are a shallow embedding of the sources:
  - `models.py` (`MessageExchange` and the pydantic JSON codec),
  - `queries.py` (the `Queries` facade and its attribute surface),
  - `election_manager.py` (`MessageCreator`, `Electoral`, `Coordinator`).

Machine integers do not occur (Python integers are unbounded); sequences are
modelled as `Nat` (the spec fixes them as non-negative: the counter starts at 1
and the only other value put on the wire is the sentinel 0).  Fallible Python
code (exceptions) is modelled with `Except`/`Option`.  The asyncio waits inside
an election round are modelled by boolean oracles giving the value that
`Electoral.wait_for_event_or_timeout` returned (true = the sleep finished
first, false = the stop event fired first).
-/

namespace Notifelect

/-! ## Digit rendering and parsing

pydantic serialises UUID fields as lowercase hyphenated hex and datetimes as
ISO-8601 text.  Both are fixed-width positional numerals, modelled here over an
arbitrary base `b` (10 for decimal fields, 16 for hex fields). -/

/-- The character for one digit value (0-9, then lowercase a-f). -/
def digitChar (d : Nat) : Char :=
  if d < 10 then Char.ofNat (48 + d) else Char.ofNat (87 + d)

/-- Raw hex value of a character, if it is a lowercase hex digit. -/
def charHexVal (c : Char) : Option Nat :=
  if '0' ≤ c ∧ c ≤ '9' then some (c.toNat - '0'.toNat)
  else if 'a' ≤ c ∧ c ≤ 'f' then some (c.toNat - 'a'.toNat + 10)
  else none

/-- Value of a digit character in base `b` (rejects digits out of range). -/
def digitVal (b : Nat) (c : Char) : Option Nat :=
  match charHexVal c with
  | some d => if d < b then some d else none
  | none => none

/-- Least-significant-first digits of `n` in base `b`, exactly `w` of them. -/
def toRev (b : Nat) : Nat → Nat → List Nat
  | 0, _ => []
  | w + 1, n => n % b :: toRev b w (n / b)

/-- Most-significant-first fixed-width digits of `n` in base `b`. -/
def toDigits (b w n : Nat) : List Nat :=
  (toRev b w n).reverse

/-- Numeric value of a most-significant-first digit list in base `b`. -/
def fromDigits (b : Nat) (ds : List Nat) : Nat :=
  ds.foldl (fun a d => a * b + d) 0

theorem toRev_length (b w n : Nat) : (toRev b w n).length = w := by
  induction w generalizing n with
  | zero => rfl
  | succ w ih => simp [toRev, ih]

theorem toDigits_length (b w n : Nat) : (toDigits b w n).length = w := by
  simp [toDigits, toRev_length]

theorem toRev_lt (b w n : Nat) (hb : 0 < b) : ∀ d ∈ toRev b w n, d < b := by
  induction w generalizing n with
  | zero => intro d hd; simp [toRev] at hd
  | succ w ih =>
    intro d hd
    simp only [toRev, List.mem_cons] at hd
    rcases hd with h | h
    · exact h ▸ Nat.mod_lt _ hb
    · exact ih _ d h

theorem toDigits_lt (b w n : Nat) (hb : 0 < b) : ∀ d ∈ toDigits b w n, d < b := by
  intro d hd
  exact toRev_lt b w n hb d (List.mem_reverse.mp hd)

theorem fromDigits_toDigits (b w n : Nat) : fromDigits b (toDigits b w n) = n % b ^ w := by
  unfold fromDigits toDigits
  rw [List.foldl_reverse]
  induction w generalizing n with
  | zero => simp [toRev, Nat.mod_one]
  | succ w ih =>
    simp only [toRev, List.foldr_cons, ih]
    rw [pow_succ, mul_comm (b ^ w) b, Nat.mod_mul]
    ring

theorem fromDigits_toDigits_of_lt (b w n : Nat) (h : n < b ^ w) :
    fromDigits b (toDigits b w n) = n := by
  rw [fromDigits_toDigits, Nat.mod_eq_of_lt h]

theorem charHexVal_digitChar : ∀ d, d < 16 → charHexVal (digitChar d) = some d := by decide

theorem digitVal_digitChar (b d : Nat) (hb : b ≤ 16) (hd : d < b) :
    digitVal b (digitChar d) = some d := by
  rw [digitVal, charHexVal_digitChar d (lt_of_lt_of_le hd hb)]
  simp [hd]

/-! ## List-consuming parser helpers -/

/-- Split off exactly `w` characters from the front of a stream. -/
def takeN : Nat → List Char → Option (List Char × List Char)
  | 0, s => some ([], s)
  | _ + 1, [] => none
  | w + 1, c :: s => (takeN w s).map (fun p => (c :: p.1, p.2))

/-- Convert every character of a list to its base-`b` digit value. -/
def digitsOf (b : Nat) : List Char → Option (List Nat)
  | [] => some []
  | c :: cs =>
    match digitVal b c, digitsOf b cs with
    | some d, some ds => some (d :: ds)
    | _, _ => none

/-- Read exactly `w` base-`b` digit characters, returning their values. -/
def readDigits (b w : Nat) (s : List Char) : Option (List Nat × List Char) :=
  (takeN w s).bind fun p => (digitsOf b p.1).map fun ds => (ds, p.2)

/-- Read exactly `w` base-`b` digit characters as one number. -/
def readFixed (b w : Nat) (s : List Char) : Option (Nat × List Char) :=
  (readDigits b w s).map fun p => (fromDigits b p.1, p.2)

/-- Consume one expected character. -/
def expectChar (c : Char) : List Char → Option (List Char)
  | [] => none
  | x :: rest => if x = c then some rest else none

theorem takeN_append (l r : List Char) : takeN l.length (l ++ r) = some (l, r) := by
  induction l with
  | nil => rfl
  | cons c cs ih => simp [takeN, ih]

theorem digitsOf_map (b : Nat) (g : List Nat) (hb : b ≤ 16) (hg : ∀ d ∈ g, d < b) :
    digitsOf b (g.map digitChar) = some g := by
  induction g with
  | nil => rfl
  | cons d ds ih =>
    simp only [List.map_cons, digitsOf]
    rw [digitVal_digitChar b d hb (hg d (by simp)), ih (fun x hx => hg x (by simp [hx]))]

theorem readDigits_append (b w : Nat) (g : List Nat) (r : List Char)
    (hb : b ≤ 16) (hw : g.length = w) (hg : ∀ d ∈ g, d < b) :
    readDigits b w (g.map digitChar ++ r) = some (g, r) := by
  have hlen : (g.map digitChar).length = w := by simp [hw]
  rw [readDigits, ← hlen, takeN_append, Option.some_bind, digitsOf_map b g hb hg]
  rfl

/-- The fixed-width character rendering of `n` in base `b`. -/
def padChars (b w n : Nat) : List Char :=
  (toDigits b w n).map digitChar

theorem readFixed_append (b w n : Nat) (r : List Char)
    (hb0 : 0 < b) (hb : b ≤ 16) (hn : n < b ^ w) :
    readFixed b w (padChars b w n ++ r) = some (n, r) := by
  rw [readFixed, padChars,
    readDigits_append b w (toDigits b w n) r hb (toDigits_length b w n) (toDigits_lt b w n hb0)]
  simp [fromDigits_toDigits_of_lt b w n hn]

theorem expectChar_cons (c : Char) (r : List Char) : expectChar c (c :: r) = some r := by
  simp [expectChar]

/-! ## UUID (`pydantic.UUID4` fields of `models.MessageExchange`)

A Python `uuid.UUID` is a 128-bit integer; its canonical text form is 32
lowercase hex digits in 8-4-4-4-12 hyphenated groups, which is what
`model_dump_json` emits and `model_validate_json` parses back. -/

structure Uuid where
  val : Nat
  lt : val < 16 ^ 32

/-- One hyphen-free hex segment of the canonical UUID text. -/
def seg (ds : List Nat) (i n : Nat) : List Char :=
  ((ds.drop i).take n).map digitChar

/-- Canonical lowercase hyphenated rendering of a UUID. -/
def renderUuid (u : Uuid) : List Char :=
  let ds := toDigits 16 32 u.val
  seg ds 0 8 ++ '-' :: (seg ds 8 4 ++ '-' :: (seg ds 12 4 ++ '-' :: (seg ds 16 4 ++ '-' :: seg ds 20 12)))

/-- Parse a canonical UUID text completely (rejects non-UUID strings). -/
def parseUuid (s : List Char) : Option Uuid :=
  (readDigits 16 8 s).bind fun p1 =>
  (expectChar '-' p1.2).bind fun s1 =>
  (readDigits 16 4 s1).bind fun p2 =>
  (expectChar '-' p2.2).bind fun s2 =>
  (readDigits 16 4 s2).bind fun p3 =>
  (expectChar '-' p3.2).bind fun s3 =>
  (readDigits 16 4 s3).bind fun p4 =>
  (expectChar '-' p4.2).bind fun s4 =>
  (readDigits 16 12 s4).bind fun p5 =>
  if p5.2 = [] then
    let v := fromDigits 16 (p1.1 ++ (p2.1 ++ (p3.1 ++ (p4.1 ++ p5.1))))
    if h : v < 16 ^ 32 then some ⟨v, h⟩ else none
  else none

theorem readDigits_seg (ds : List Nat) (i n : Nat) (r : List Char)
    (hb : ∀ d ∈ ds, d < 16) (hn : i + n ≤ ds.length) :
    readDigits 16 n (seg ds i n ++ r) = some ((ds.drop i).take n, r) := by
  apply readDigits_append
  · exact le_refl 16
  · rw [List.length_take, List.length_drop]
    omega
  · intro d hd
    exact hb d (List.mem_of_mem_drop (List.mem_of_mem_take hd))

theorem readDigits_seg_nil (ds : List Nat) (i n : Nat)
    (hb : ∀ d ∈ ds, d < 16) (hn : i + n ≤ ds.length) :
    readDigits 16 n (seg ds i n) = some ((ds.drop i).take n, []) := by
  rw [← List.append_nil (seg ds i n)]
  exact readDigits_seg ds i n [] hb hn

theorem parseUuid_renderUuid (u : Uuid) : parseUuid (renderUuid u) = some u := by
  have hlen : (toDigits 16 32 u.val).length = 32 := toDigits_length 16 32 u.val
  have hlt : ∀ d ∈ toDigits 16 32 u.val, d < 16 := toDigits_lt 16 32 u.val (by omega)
  set ds := toDigits 16 32 u.val with hds
  simp only [renderUuid, parseUuid, ← hds]
  rw [readDigits_seg ds 0 8 _ hlt (by omega), Option.some_bind, expectChar_cons, Option.some_bind,
    readDigits_seg ds 8 4 _ hlt (by omega), Option.some_bind, expectChar_cons, Option.some_bind,
    readDigits_seg ds 12 4 _ hlt (by omega), Option.some_bind, expectChar_cons, Option.some_bind,
    readDigits_seg ds 16 4 _ hlt (by omega), Option.some_bind, expectChar_cons, Option.some_bind,
    readDigits_seg_nil ds 20 12 hlt (by omega), Option.some_bind]
  have hcat : ds.take 8 ++ ((ds.drop 8).take 4 ++ ((ds.drop 12).take 4 ++
      ((ds.drop 16).take 4 ++ (ds.drop 20).take 12))) = ds := by
    have h8 : ds.take 8 ++ (ds.drop 8).take 4 = ds.take 12 := (List.take_add ds 8 4).symm
    have h12 : ds.take 12 ++ (ds.drop 12).take 4 = ds.take 16 := (List.take_add ds 12 4).symm
    have h16 : ds.take 16 ++ (ds.drop 16).take 4 = ds.take 20 := (List.take_add ds 16 4).symm
    have h20 : ds.take 20 ++ (ds.drop 20).take 12 = ds.take 32 := (List.take_add ds 20 12).symm
    have h32 : ds.take 32 = ds := by rw [← hlen, List.take_length]
    simp only [← List.append_assoc, h8, h12, h16, h20, h32]
  have hval : fromDigits 16 ds = u.val := fromDigits_toDigits_of_lt 16 32 u.val u.lt
  have hbig : u.val < 340282366920938463463374607431768211456 := by
    have h := u.lt
    norm_num at h
    exact h
  simp [hcat, hval, hbig]

/-! ## Timestamp (`pydantic.AwareDatetime` field `sent_at`)

`MessageCreator.create_message` stamps `sent_at = datetime.now(tz=timezone.utc)`;
the codec serialises an aware datetime as ISO-8601 text with an explicit offset
and parses it back.  The calendar bounds below are the structural validity
pydantic enforces (the day-per-month refinement of the external library is
abstracted to `day ≤ 31`). -/

/-- Structural validity of an aware timestamp's components. -/
def tsValid (year month day hour minute second micro offHour offMin : Nat) : Prop :=
  1 ≤ year ∧ year ≤ 9999 ∧ 1 ≤ month ∧ month ≤ 12 ∧ 1 ≤ day ∧ day ≤ 31 ∧
  hour ≤ 23 ∧ minute ≤ 59 ∧ second ≤ 59 ∧ micro ≤ 999999 ∧ offHour ≤ 23 ∧ offMin ≤ 59

instance (y mo d h mi s us oh om : Nat) : Decidable (tsValid y mo d h mi s us oh om) := by
  unfold tsValid
  infer_instance

structure Timestamp where
  year : Nat
  month : Nat
  day : Nat
  hour : Nat
  minute : Nat
  second : Nat
  micro : Nat
  offNeg : Bool
  offHour : Nat
  offMin : Nat
  valid : tsValid year month day hour minute second micro offHour offMin

/-- Rendering of the calendar date part `YYYY-MM-DD`. -/
def renderDate (y mo d : Nat) : List Char :=
  padChars 10 4 y ++ '-' :: (padChars 10 2 mo ++ '-' :: padChars 10 2 d)

/-- Rendering of the clock part `HH:MM:SS.ffffff`. -/
def renderClock (h mi s us : Nat) : List Char :=
  padChars 10 2 h ++ ':' :: (padChars 10 2 mi ++ ':' :: (padChars 10 2 s ++ '.' :: padChars 10 6 us))

/-- Rendering of the offset part `±HH:MM`. -/
def renderOffset (neg : Bool) (oh om : Nat) : List Char :=
  (if neg then '-' else '+') :: (padChars 10 2 oh ++ ':' :: padChars 10 2 om)

/-- ISO-8601 rendering `YYYY-MM-DDTHH:MM:SS.ffffff±HH:MM` of an aware timestamp. -/
def renderTimestamp (t : Timestamp) : List Char :=
  renderDate t.year t.month t.day ++
    'T' :: (renderClock t.hour t.minute t.second t.micro ++ renderOffset t.offNeg t.offHour t.offMin)

/-- Consume the offset sign of an ISO-8601 timestamp. -/
def parseSign : List Char → Option (Bool × List Char)
  | '+' :: r => some (false, r)
  | '-' :: r => some (true, r)
  | _ => none

/-- Parse the calendar date part. -/
def parseDate (s : List Char) : Option ((Nat × Nat × Nat) × List Char) :=
  (readFixed 10 4 s).bind fun py =>
  (expectChar '-' py.2).bind fun s1 =>
  (readFixed 10 2 s1).bind fun pmo =>
  (expectChar '-' pmo.2).bind fun s2 =>
  (readFixed 10 2 s2).bind fun pd =>
  some ((py.1, pmo.1, pd.1), pd.2)

/-- Parse the clock part. -/
def parseClock (s : List Char) : Option ((Nat × Nat × Nat × Nat) × List Char) :=
  (readFixed 10 2 s).bind fun ph =>
  (expectChar ':' ph.2).bind fun s4 =>
  (readFixed 10 2 s4).bind fun pmi =>
  (expectChar ':' pmi.2).bind fun s5 =>
  (readFixed 10 2 s5).bind fun ps =>
  (expectChar '.' ps.2).bind fun s6 =>
  (readFixed 10 6 s6).bind fun pus =>
  some ((ph.1, pmi.1, ps.1, pus.1), pus.2)

/-- Parse the offset part. -/
def parseOffset (s : List Char) : Option ((Bool × Nat × Nat) × List Char) :=
  (parseSign s).bind fun psg =>
  (readFixed 10 2 psg.2).bind fun poh =>
  (expectChar ':' poh.2).bind fun s7 =>
  (readFixed 10 2 s7).bind fun pom =>
  some ((psg.1, poh.1, pom.1), pom.2)

/-- Parse an ISO-8601 aware timestamp completely (rejects malformed text). -/
def parseTimestamp (s : List Char) : Option Timestamp :=
  (parseDate s).bind fun pdate =>
  (expectChar 'T' pdate.2).bind fun s3 =>
  (parseClock s3).bind fun pclock =>
  (parseOffset pclock.2).bind fun poff =>
  if poff.2 = [] then
    match pdate.1, pclock.1, poff.1 with
    | (y, mo, d), (h, mi, sec, us), (sg, oh, om) =>
      if hv : tsValid y mo d h mi sec us oh om then
        some ⟨y, mo, d, h, mi, sec, us, sg, oh, om, hv⟩
      else none
  else none

theorem parseSign_cons (neg : Bool) (r : List Char) :
    parseSign ((if neg then '-' else '+') :: r) = some (neg, r) := by
  cases neg <;> rfl

theorem parseDate_append (y mo d : Nat) (r : List Char)
    (hy : y ≤ 9999) (hmo : mo ≤ 99) (hd : d ≤ 99) :
    parseDate (renderDate y mo d ++ r) = some ((y, mo, d), r) := by
  have e2 : (10 : Nat) ^ 2 = 100 := by norm_num
  have e4 : (10 : Nat) ^ 4 = 10000 := by norm_num
  simp only [renderDate, parseDate, List.append_assoc, List.cons_append]
  rw [readFixed_append 10 4 y _ (by omega) (by omega) (by omega), Option.some_bind,
    expectChar_cons, Option.some_bind,
    readFixed_append 10 2 mo _ (by omega) (by omega) (by omega), Option.some_bind,
    expectChar_cons, Option.some_bind,
    readFixed_append 10 2 d _ (by omega) (by omega) (by omega), Option.some_bind]

theorem parseClock_append (h mi s us : Nat) (r : List Char)
    (hh : h ≤ 99) (hmi : mi ≤ 99) (hs : s ≤ 99) (hus : us ≤ 999999) :
    parseClock (renderClock h mi s us ++ r) = some ((h, mi, s, us), r) := by
  have e2 : (10 : Nat) ^ 2 = 100 := by norm_num
  have e6 : (10 : Nat) ^ 6 = 1000000 := by norm_num
  simp only [renderClock, parseClock, List.append_assoc, List.cons_append]
  rw [readFixed_append 10 2 h _ (by omega) (by omega) (by omega), Option.some_bind,
    expectChar_cons, Option.some_bind,
    readFixed_append 10 2 mi _ (by omega) (by omega) (by omega), Option.some_bind,
    expectChar_cons, Option.some_bind,
    readFixed_append 10 2 s _ (by omega) (by omega) (by omega), Option.some_bind,
    expectChar_cons, Option.some_bind,
    readFixed_append 10 6 us _ (by omega) (by omega) (by omega), Option.some_bind]

theorem parseOffset_nil (neg : Bool) (oh om : Nat) (hoh : oh ≤ 99) (hom : om ≤ 99) :
    parseOffset (renderOffset neg oh om) = some ((neg, oh, om), []) := by
  have e2 : (10 : Nat) ^ 2 = 100 := by norm_num
  simp only [renderOffset, parseOffset]
  rw [parseSign_cons, Option.some_bind,
    readFixed_append 10 2 oh _ (by omega) (by omega) (by omega), Option.some_bind,
    expectChar_cons, Option.some_bind,
    ← List.append_nil (padChars 10 2 om),
    readFixed_append 10 2 om [] (by omega) (by omega) (by omega), Option.some_bind]

theorem parseTimestamp_renderTimestamp (t : Timestamp) :
    parseTimestamp (renderTimestamp t) = some t := by
  obtain ⟨hy1, hy2, hmo1, hmo2, hd1, hd2, hh, hmi, hs, hus, hoh, hom⟩ := t.valid
  simp only [renderTimestamp, parseTimestamp]
  rw [parseDate_append t.year t.month t.day _ (by omega) (by omega) (by omega), Option.some_bind,
    expectChar_cons, Option.some_bind,
    parseClock_append t.hour t.minute t.second t.micro _
      (by omega) (by omega) (by omega) (by omega), Option.some_bind,
    parseOffset_nil t.offNeg t.offHour t.offMin (by omega) (by omega), Option.some_bind]
  have hv : tsValid t.year t.month t.day t.hour t.minute t.second t.micro t.offHour t.offMin :=
    t.valid
  simp [hv]

/-! ## The wire record (`models.MessageExchange`)

`models.py` declares the sole wire record as a pydantic model with fields
`channel, message_id, namespace, process_id, sent_at, sequence, type`.
`namespace` and `type` are Lean keywords, so those two fields are named
`nspace` and `mtype` here.  `type` is `Literal["Ping", "Pong"]`, an
enumeration. -/

inductive MsgType
  | Ping
  | Pong
deriving DecidableEq

structure MessageExchange where
  channel : List Char
  message_id : Uuid
  nspace : List Char
  process_id : Uuid
  sent_at : Timestamp
  sequence : Nat
  mtype : MsgType

/-! ## JSON codec (`model_dump_json` / `model_validate_json`)

The canonical encoding is modelled at the level of the JSON document: an
object is a list of key/value pairs, values are strings or numbers.  UUID and
timestamp fields are rendered to their canonical text exactly as above; the
JSON text layer itself (brace/quote printing of the external library) is not
re-modelled. -/

inductive JVal
  | jstr : List Char → JVal
  | jnum : Nat → JVal
deriving DecidableEq

/-- A JSON object: field names with values. -/
def JObj := List (List Char × JVal)

def kChannel : List Char := ['c', 'h', 'a', 'n', 'n', 'e', 'l']
def kMessageId : List Char := ['m', 'e', 's', 's', 'a', 'g', 'e', '_', 'i', 'd']
def kNamespace : List Char := ['n', 'a', 'm', 'e', 's', 'p', 'a', 'c', 'e']
def kProcessId : List Char := ['p', 'r', 'o', 'c', 'e', 's', 's', '_', 'i', 'd']
def kSentAt : List Char := ['s', 'e', 'n', 't', '_', 'a', 't']
def kSequence : List Char := ['s', 'e', 'q', 'u', 'e', 'n', 'c', 'e']
def kType : List Char := ['t', 'y', 'p', 'e']

def renderMsgType : MsgType → List Char
  | .Ping => ['P', 'i', 'n', 'g']
  | .Pong => ['P', 'o', 'n', 'g']

/-- Reject any unrecognized `type` value (pydantic `Literal` validation). -/
def parseMsgType (s : List Char) : Option MsgType :=
  if s = ['P', 'i', 'n', 'g'] then some .Ping
  else if s = ['P', 'o', 'n', 'g'] then some .Pong
  else none

/-- `MessageExchange.model_dump_json`, at the JSON-document level. -/
def encodeMessage (m : MessageExchange) : JObj :=
  [(kChannel, .jstr m.channel),
   (kMessageId, .jstr (renderUuid m.message_id)),
   (kNamespace, .jstr m.nspace),
   (kProcessId, .jstr (renderUuid m.process_id)),
   (kSentAt, .jstr (renderTimestamp m.sent_at)),
   (kSequence, .jnum m.sequence),
   (kType, .jstr (renderMsgType m.mtype))]

/-- Field access: a string-valued field of the object. -/
def lookupStr (j : JObj) (k : List Char) : Option (List Char) :=
  match List.lookup k j with
  | some (.jstr s) => some s
  | _ => none

/-- Field access: a number-valued field of the object. -/
def lookupNum (j : JObj) (k : List Char) : Option Nat :=
  match List.lookup k j with
  | some (.jnum n) => some n
  | _ => none

/-- `MessageExchange.model_validate_json`, at the JSON-document level: every
field must be present with the right shape, identifiers must parse as UUIDs,
`sent_at` as an aware ISO-8601 timestamp, `type` as `Ping` or `Pong`;
otherwise validation fails (`none`). -/
def decodeMessage (j : JObj) : Option MessageExchange :=
  (lookupStr j kChannel).bind fun channel =>
  (lookupStr j kMessageId).bind fun midS =>
  (parseUuid midS).bind fun mid =>
  (lookupStr j kNamespace).bind fun ns =>
  (lookupStr j kProcessId).bind fun pidS =>
  (parseUuid pidS).bind fun pid =>
  (lookupStr j kSentAt).bind fun tsS =>
  (parseTimestamp tsS).bind fun ts =>
  (lookupNum j kSequence).bind fun seq =>
  (lookupStr j kType).bind fun tyS =>
  (parseMsgType tyS).bind fun ty =>
  some ⟨channel, mid, ns, pid, ts, seq, ty⟩

theorem lookup_encode_channel (m : MessageExchange) :
    lookupStr (encodeMessage m) kChannel = some m.channel := rfl

theorem lookup_encode_message_id (m : MessageExchange) :
    lookupStr (encodeMessage m) kMessageId = some (renderUuid m.message_id) := rfl

theorem lookup_encode_namespace (m : MessageExchange) :
    lookupStr (encodeMessage m) kNamespace = some m.nspace := rfl

theorem lookup_encode_process_id (m : MessageExchange) :
    lookupStr (encodeMessage m) kProcessId = some (renderUuid m.process_id) := rfl

theorem lookup_encode_sent_at (m : MessageExchange) :
    lookupStr (encodeMessage m) kSentAt = some (renderTimestamp m.sent_at) := rfl

theorem lookup_encode_sequence (m : MessageExchange) :
    lookupNum (encodeMessage m) kSequence = some m.sequence := rfl

theorem lookup_encode_type (m : MessageExchange) :
    lookupStr (encodeMessage m) kType = some (renderMsgType m.mtype) := rfl

theorem parseMsgType_renderMsgType (ty : MsgType) :
    parseMsgType (renderMsgType ty) = some ty := by
  cases ty <;> rfl

/-- Decoding the canonical encoding restores the original message. -/
theorem decode_encode (m : MessageExchange) :
    decodeMessage (encodeMessage m) = some m := by
  rw [decodeMessage, lookup_encode_channel, Option.some_bind,
    lookup_encode_message_id, Option.some_bind,
    parseUuid_renderUuid, Option.some_bind,
    lookup_encode_namespace, Option.some_bind,
    lookup_encode_process_id, Option.some_bind,
    parseUuid_renderUuid, Option.some_bind,
    lookup_encode_sent_at, Option.some_bind,
    parseTimestamp_renderTimestamp, Option.some_bind,
    lookup_encode_sequence, Option.some_bind,
    lookup_encode_type, Option.some_bind,
    parseMsgType_renderMsgType, Option.some_bind]

/-! ## Python exception names appearing in the embedding -/

def attributeError : List Char := ['A', 't', 't', 'r', 'i', 'b', 'u', 't', 'e', 'E', 'r', 'r', 'o', 'r']

def assertionError : List Char := ['A', 's', 's', 'e', 'r', 't', 'i', 'o', 'n', 'E', 'r', 'r', 'o', 'r']

def valueError : List Char := ['V', 'a', 'l', 'u', 'e', 'E', 'r', 'r', 'o', 'r']

/-! ## Query layer (`queries.Queries`)

The dataclass `Queries` in `queries.py` defines exactly the coroutine methods
`install`, `uninstall`, `sequence` and `emit` (plus the data attributes
`connection`, `query_builder`, `lock`).  The election code in
`election_manager.py` publishes through the attribute name `notify`
(lines 158, 259, 331 and 345: `self.queries.notify(...)`).  Python resolves
such an attribute at call time and raises `AttributeError` when the class
defines no such attribute. -/

/-- The attribute names defined on a `Queries` instance. -/
def queriesAttrs : List (List Char) :=
  [['c', 'o', 'n', 'n', 'e', 'c', 't', 'i', 'o', 'n'],
   ['q', 'u', 'e', 'r', 'y', '_', 'b', 'u', 'i', 'l', 'd', 'e', 'r'],
   ['l', 'o', 'c', 'k'],
   ['i', 'n', 's', 't', 'a', 'l', 'l'],
   ['u', 'n', 'i', 'n', 's', 't', 'a', 'l', 'l'],
   ['s', 'e', 'q', 'u', 'e', 'n', 'c', 'e'],
   ['e', 'm', 'i', 't']]

/-- The attribute name through which `Electoral.routine_election`,
`Coordinator.handle_ping`, `Coordinator.__aenter__` and
`Coordinator.__aexit__` publish messages. -/
def publicationAttr : List Char := ['n', 'o', 't', 'i', 'f', 'y']

/-- The attribute name of the publish operation `Queries` actually defines. -/
def emitAttr : List Char := ['e', 'm', 'i', 't']

/-- Python attribute lookup on a `Queries` instance. -/
def getQueriesAttr (n : List Char) : Except (List Char) (List Char) :=
  if queriesAttrs.contains n then .ok n else .error attributeError

/-- Body of `Queries.emit`: `pg_notify` publishes the JSON encoding of the
event on the channel. -/
def emitPayload (m : MessageExchange) : JObj := encodeMessage m

/-- A publication call site `self.queries.notify(...)`: Python first resolves
the attribute `notify` on the `Queries` instance, which raises
`AttributeError` (the class defines `emit`, not `notify`), before any message
is built, scheduled or sent.  The `.ok` branch is the path the source would
take if the attribute existed. -/
def notifyCall : Except (List Char) Unit :=
  match getQueriesAttr publicationAttr with
  | .ok _ => .ok ()
  | .error e => .error e

theorem notifyCall_eq : notifyCall = .error attributeError := rfl

/-! ## Electoral engine (`election_manager.Electoral`)

`Electoral` owns the ballot list and the `Outcome`; `ElectoralState` below is
that pair (`winner` models `Outcome.winner`, initialised `False`).  The two
`wait_for_event_or_timeout` calls of a round race the stop event against a
sleep and return whether the sleep finished first; in the embedding each wait's
result is a boolean oracle (`t1`, `t2`), and the Pongs the dispatcher appends
while a wait is pending are oracle lists (`arr1`, `arr2`). -/

structure ElectoralState where
  ballots : List MessageExchange
  winner : Bool

/-- Python's `max(...)` on a list of values: `ValueError` on an empty
sequence, otherwise the maximum. -/
def pyMax : List Nat → Except (List Char) Nat
  | [] => .error valueError
  | x :: xs => .ok (xs.foldl max x)

/-- The tally at the end of a round (`election_manager.py` lines 167-170):
`max_sequence = max(p.sequence for p in self.ballots)`,
`winner = (max_sequence == sequence)`, `ballots.clear()`. -/
def tally (localSeq : Nat) (ballots : List MessageExchange) : Except (List Char) ElectoralState :=
  match pyMax (ballots.map (fun p => p.sequence)) with
  | .error e => .error e
  | .ok maxSeq => .ok ⟨[], maxSeq == localSeq⟩

/-- Result of one iteration of the `routine_election` loop body. -/
inductive RoundOutcome
  | aborted (st : ElectoralState)
  | completed (st : ElectoralState)
  | failed (e : List Char) (st : ElectoralState)

/-- One iteration of `Electoral.routine_election` (lines 150-175): wait the
interval (abort on stop), publish a Ping via `self.queries.notify` (line 158
— this raises `AttributeError`, see `notifyCall`), wait the collection window
(abort on stop), then tally.  On every error path the exception propagates
with the state at the raise site: ballots uncleared, winner untouched. -/
def electionRound (localSeq : Nat) (t1 t2 : Bool)
    (arr1 arr2 : List MessageExchange) (st : ElectoralState) : RoundOutcome :=
  let st1 : ElectoralState := ⟨st.ballots ++ arr1, st.winner⟩
  if t1 = false then .aborted st1
  else
    match notifyCall with
    | .error e => .failed e st1
    | .ok _ =>
      let st2 : ElectoralState := ⟨st1.ballots ++ arr2, st1.winner⟩
      if t2 = false then .aborted st2
      else
        match tally localSeq st2.ballots with
        | .error e => .failed e st2
        | .ok st' => .completed st'

/-- Environment of one round: the two wait results and the Pongs appended by
the dispatcher while each wait was pending. -/
structure RoundEnv where
  t1 : Bool
  t2 : Bool
  arr1 : List MessageExchange
  arr2 : List MessageExchange

/-- `Electoral.routine_election`: iterate rounds until the stop event is
observed (either at the loop guard, when the oracle list runs out, or inside a
wait, when the round aborts) or an exception propagates.  The result pairs
the electoral state with the raised error, if any, so that the state at the
raise site stays observable. -/
def routine_election (localSeq : Nat) : List RoundEnv → ElectoralState →
    ElectoralState × Option (List Char)
  | [], st => (st, none)
  | e :: rest, st =>
    match electionRound localSeq e.t1 e.t2 e.arr1 e.arr2 st with
    | .aborted st' => (st', none)
    | .failed msg st' => (st', some msg)
    | .completed st' => routine_election localSeq rest st'

/-! ## Coordinator (`election_manager.Coordinator`) -/

/-- `Coordinator.handle_ping` (lines 239-263): if `settings.sequence >=
ping.sequence`, assert `settings.sequence > 0`, then evaluate
`self.queries.notify` to build the publication task — which raises
`AttributeError` (line 259) before anything is scheduled; otherwise fall
through with no action.  `.ok (some s)` — a Pong carrying sequence `s`
scheduled — is the branch the source would take if the attribute existed;
`.ok none` means no action; `.error` is the raised exception. -/
def handle_ping (localSeq pingSeq : Nat) : Except (List Char) (Option Nat) :=
  if localSeq ≥ pingSeq then
    if localSeq > 0 then
      match notifyCall with
      | .ok _ => .ok (some localSeq)
      | .error e => .error e
    else .error assertionError
  else .ok none

/-- Effects of one dispatcher invocation: the electoral state afterwards, the
sequences of the Pongs scheduled for publication, and a raised error if any. -/
structure DispatchEffects where
  st : ElectoralState
  published : List Nat
  error : Option (List Char)

/-- `Coordinator.parse_and_dispatch` (lines 277-315): validate the payload
(drop on failure), drop on namespace mismatch (warning), route `Ping` to
`handle_ping` and `Pong` to `handle_pong` (which appends to the ballots).
The unsupported-type branch is unreachable once validation has succeeded,
since the codec admits only `Ping` and `Pong`. -/
def parse_and_dispatch (nspace : List Char) (localSeq : Nat) (st : ElectoralState)
    (payload : JObj) : DispatchEffects :=
  match decodeMessage payload with
  | none => ⟨st, [], none⟩
  | some parsed =>
    if parsed.nspace ≠ nspace then ⟨st, [], none⟩
    else
      match parsed.mtype with
      | .Ping =>
        match handle_ping localSeq parsed.sequence with
        | .ok none => ⟨st, [], none⟩
        | .ok (some s) => ⟨st, [s], none⟩
        | .error e => ⟨st, [], some e⟩
      | .Pong => ⟨⟨st.ballots ++ [parsed], st.winner⟩, [], none⟩

/-! ## Channel listeners (`Coordinator.__aenter__` / `__aexit__`)

`__aenter__` registers `lambda *x: self.parse_and_dispatch(x[-1])` as the
channel listener; `__aexit__` calls `remove_listener` with the bound method
`self.parse_and_dispatch`.  The database driver unregisters a callback only
when the very callback object passed is currently registered, and silently
does nothing otherwise; a lambda wrapper is a distinct callable from the bound
method it wraps. -/

inductive Callback
  | lambdaWrapper
  | boundParseAndDispatch
deriving DecidableEq

/-- `connection.add_listener`: append the callback. -/
def add_listener (ls : List Callback) (c : Callback) : List Callback :=
  ls ++ [c]

/-- `connection.remove_listener`: remove the callback if registered, silently
do nothing otherwise. -/
def remove_listener (ls : List Callback) (c : Callback) : List Callback :=
  ls.erase c

/-- Listener registration performed by `Coordinator.__aenter__` (line 325). -/
def coordinatorEnterListeners (ls : List Callback) : List Callback :=
  add_listener ls .lambdaWrapper

/-- Listener removal performed by `Coordinator.__aexit__` (line 340). -/
def coordinatorExitListeners (ls : List Callback) : List Callback :=
  remove_listener ls .boundParseAndDispatch

/-! ## Scoped entry (`Coordinator.__aenter__`, lines 317-332)

The entry body runs, in order: acquire `settings.sequence` from the database
counter, spawn the election loop, register the channel listener, and attempt
to publish an initial Ping stamped with the current `settings.sequence` —
an attempt that raises `AttributeError` at the `self.queries.notify` lookup
(line 331), aborting the entry after the listener is already registered. -/

inductive EntryStep
  | acquireSequence (v : Nat)
  | spawnElection
  | registerListener
  | publishInitialPing

/-- Coordinator state touched by the entry body.  `Settings.sequence`
defaults to `0` before entry. -/
structure CoordState where
  seq : Nat
  listeners : List Callback
  published : List Nat

def initialCoordState : CoordState := ⟨0, [], []⟩

def applyEntryStep (s : CoordState) : EntryStep → Except (List Char) CoordState
  | .acquireSequence v => .ok ⟨v, s.listeners, s.published⟩
  | .spawnElection => .ok s
  | .registerListener => .ok ⟨s.seq, add_listener s.listeners .lambdaWrapper, s.published⟩
  | .publishInitialPing =>
    match notifyCall with
    | .ok _ => .ok ⟨s.seq, s.listeners, s.published ++ [s.seq]⟩
    | .error e => .error e

/-- The ordered steps of `__aenter__`, with `v` the value the database
counter returned for `SELECT nextval(...)`. -/
def coordinatorEnterSteps (v : Nat) : List EntryStep :=
  [.acquireSequence v, .spawnElection, .registerListener, .publishInitialPing]

/-- Run the entry body step by step; on a raised exception the remaining steps
do not execute and the state at the raise site is kept alongside the error. -/
def runEntrySteps : List EntryStep → CoordState → CoordState × Option (List Char)
  | [], s => (s, none)
  | step :: rest, s =>
    match applyEntryStep s step with
    | .ok s' => runEntrySteps rest s'
    | .error e => (s, some e)

/-! ## Helper lemmas about Python `max` over a fold -/

theorem foldl_max_le_iff (xs : List Nat) (x c : Nat) :
    xs.foldl max x ≤ c ↔ x ≤ c ∧ ∀ y ∈ xs, y ≤ c := by
  induction xs generalizing x with
  | nil => simp
  | cons a as ih =>
    simp only [List.foldl_cons, ih, Nat.max_le, List.mem_cons]
    constructor
    · rintro ⟨⟨hx, ha⟩, hall⟩
      exact ⟨hx, fun y hy => hy.elim (fun hya => hya ▸ ha) (hall y)⟩
    · rintro ⟨hx, hall⟩
      exact ⟨⟨hx, hall a (Or.inl rfl)⟩, fun y hy => hall y (Or.inr hy)⟩

theorem foldl_max_mem (xs : List Nat) (x : Nat) : xs.foldl max x ∈ x :: xs := by
  induction xs generalizing x with
  | nil => simp
  | cons a as ih =>
    have h := ih (max x a)
    simp only [List.foldl_cons]
    rcases List.mem_cons.mp h with h1 | h1
    · rcases Nat.le_total x a with hle | hle
      · rw [h1, Nat.max_eq_right hle]; simp
      · rw [h1, Nat.max_eq_left hle]; simp
    · simp [h1]

/-- Characterisation of the tallied maximum: it equals `c` exactly when every
element is at most `c` and some element attains `c`. -/
theorem pyMax_eq_iff (l : List Nat) (m c : Nat) (h : pyMax l = .ok m) :
    m = c ↔ (∀ y ∈ l, y ≤ c) ∧ c ∈ l := by
  match l with
  | [] => simp [pyMax] at h
  | x :: xs =>
    simp only [pyMax, Except.ok.injEq] at h
    subst h
    constructor
    · intro hm
      refine ⟨?_, hm ▸ foldl_max_mem xs x⟩
      intro y hy
      rw [← hm]
      rcases List.mem_cons.mp hy with h1 | h1
      · exact h1 ▸ ((foldl_max_le_iff xs x _).mp (le_refl _)).1
      · exact ((foldl_max_le_iff xs x _).mp (le_refl _)).2 y h1
    · rintro ⟨hall, hmem⟩
      have h1 : xs.foldl max x ≤ c := by
        rw [foldl_max_le_iff]
        exact ⟨hall x (by simp), fun y hy => hall y (by simp [hy])⟩
      have h2 : c ≤ xs.foldl max x := by
        have hm := foldl_max_mem xs x
        rcases List.mem_cons.mp hmem with h3 | h3
        · exact h3 ▸ ((foldl_max_le_iff xs x _).mp (le_refl _)).1
        · exact ((foldl_max_le_iff xs x _).mp (le_refl _)).2 c h3
      omega

/-! ## Sample concrete values, used for witnesses and counterexamples -/

def sampleUuid : Uuid := ⟨0, by norm_num⟩

def sampleUuid2 : Uuid := ⟨1, by norm_num⟩

def sampleTimestamp : Timestamp := ⟨2024, 1, 1, 0, 0, 0, 0, false, 0, 0, by decide⟩

/-- A concrete message on channel `ch` in namespace `ns`. -/
def mkMsg (pid : Uuid) (ty : MsgType) (seq : Nat) : MessageExchange :=
  ⟨['c', 'h'], sampleUuid, ['n', 's'], pid, sampleTimestamp, seq, ty⟩

/-! ## Claims -/

/-- C1: the claim says the Query Layer provides a `notify` operation and that
the probe publications of the Electoral engine and the Coordinator invoke it
successfully.  In the code, `Queries` defines the publish operation under the
attribute `emit`, while all four publication sites access `queries.notify`;
that attribute lookup raises `AttributeError`, so none of the publications can
succeed. -/
theorem queries_notify_attribute_error :
    getQueriesAttr publicationAttr = .error attributeError ∧
    getQueriesAttr emitAttr = .ok emitAttr := by
  constructor <;> rfl

/-- C2: the claim speaks of rounds that complete (both waits elapse without
the stop event) and of the tally they then perform.  No round ever completes:
once the interval wait elapses, the Ping publication
`self.queries.notify(...)` at line 158 raises `AttributeError`, the loop dies
before the collection window and the tally, `winner` is never written and the
ballots are never cleared. -/
theorem election_round_publish_crash (localSeq : Nat) (t2 : Bool)
    (arr1 arr2 : List MessageExchange) (st : ElectoralState) (rest : List RoundEnv) :
    electionRound localSeq true t2 arr1 arr2 st =
      .failed attributeError ⟨st.ballots ++ arr1, st.winner⟩ ∧
    routine_election localSeq (⟨true, t2, arr1, arr2⟩ :: rest) st =
      (⟨st.ballots ++ arr1, st.winner⟩, some attributeError) ∧
    (∀ st', electionRound localSeq true t2 arr1 arr2 st ≠ .completed st') := by
  refine ⟨rfl, rfl, ?_⟩
  intro st' h
  rw [show electionRound localSeq true t2 arr1 arr2 st =
    .failed attributeError ⟨st.ballots ++ arr1, st.winner⟩ from rfl] at h
  exact RoundOutcome.noConfusion h

/-- C3: for a lone peer the round does not complete without failure and the
peer does not win its own election: the round's Ping publication raises
`AttributeError` (so the round never reaches the tally and `winner` stays
false), the self-response path of `handle_ping` raises the same
`AttributeError` before any Pong exists, and even the tally itself, were it
reached with an empty ballot list, would raise `ValueError` rather than treat
the local sequence as the maximum. -/
theorem lone_peer_round_fails :
    electionRound 1 true true [] [] ⟨[], false⟩ = .failed attributeError ⟨[], false⟩ ∧
    handle_ping 1 1 = .error attributeError ∧
    tally 1 ([] : List MessageExchange) = .error valueError ∧
    (routine_election 1 [⟨true, true, [], []⟩] ⟨[], false⟩).1.winner = false := by
  exact ⟨rfl, rfl, rfl, rfl⟩

/-- C4: the handler never publishes a Pong.  When `local >= q.sequence` and
`local > 0` — precisely where the claim says a Pong stamped with the local
sequence is published — the `self.queries.notify` lookup at line 259 raises
`AttributeError` after the assert and nothing is scheduled; when
`local < q.sequence` it does nothing; and when `local >= q.sequence` with
`local = 0` it raises `AssertionError` where the claim says nothing happens. -/
theorem handle_ping_behavior (localSeq pingSeq : Nat) :
    (pingSeq ≤ localSeq → 0 < localSeq →
      handle_ping localSeq pingSeq = .error attributeError) ∧
    (localSeq < pingSeq → handle_ping localSeq pingSeq = .ok none) ∧
    (pingSeq ≤ localSeq → localSeq = 0 →
      handle_ping localSeq pingSeq = .error assertionError) ∧
    (∀ s, handle_ping localSeq pingSeq ≠ .ok (some s)) := by
  rcases Nat.lt_or_ge localSeq pingSeq with hlt | hge
  · rw [handle_ping, if_neg (by omega)]
    refine ⟨fun h _ => by omega, fun _ => rfl, fun h _ => by omega, ?_⟩
    intro s h
    exact Option.noConfusion (Except.ok.inj h)
  · rcases Nat.eq_zero_or_pos localSeq with h0 | hpos
    · subst h0
      rw [handle_ping, if_pos (by omega), if_neg (by omega)]
      refine ⟨fun _ h => by omega, fun h => by omega, fun _ _ => rfl, ?_⟩
      intro s h
      exact Except.noConfusion h
    · rw [handle_ping, if_pos hge, if_pos hpos, notifyCall_eq]
      refine ⟨fun _ _ => rfl, fun h => by omega, fun _ h => by omega, ?_⟩
      intro s h
      exact Except.noConfusion h

/-- C4 witness: a Ping of sequence 1 against local sequence 2 passes the
guard and the assert, then fails at the attribute lookup; no Pong exists. -/
theorem handle_ping_behavior_witness : handle_ping 2 1 = .error attributeError :=
  (handle_ping_behavior 2 1).1 (by omega) (by omega)

/-- C5: the claim says the listener registered at scope entry is unregistered
at scope exit.  Entry registers the lambda wrapper; exit asks the driver to
remove the bound method `parse_and_dispatch`, which was never registered, so
the removal is a silent no-op and the wrapper — which still dispatches every
inbound payload — remains registered after exit. -/
theorem exit_leaves_listener_registered :
    coordinatorExitListeners (coordinatorEnterListeners []) = [Callback.lambdaWrapper] ∧
    Callback.lambdaWrapper ≠ Callback.boundParseAndDispatch := by
  constructor
  · rfl
  · intro h
    exact Callback.noConfusion h

/-- C6 counterexample: two Pongs tie at the maximal sequence 5, which equals
the local sequence; the claim says the round is indeterminate and `winner` is
set to false, but the tally sets `winner = (max == local) = true`. -/
theorem tie_sets_winner_true :
    tally 5 [mkMsg sampleUuid .Pong 5, mkMsg sampleUuid2 .Pong 5] = .ok ⟨[], true⟩ := rfl

/-- C6 (amended): a tie at the maximal sequence is not treated as
indeterminate: the tally still sets `winner = (max_sequence == local
sequence)`, so a tie at the local sequence yields `winner = true` and a tie
at any other value yields `winner = false`. -/
theorem tie_winner_follows_max (localSeq maxSeq : Nat) (ballots : List MessageExchange)
    (hmax : pyMax (ballots.map (fun p => p.sequence)) = .ok maxSeq)
    (_htie : 2 ≤ (ballots.filter (fun p => p.sequence == maxSeq)).length) :
    tally localSeq ballots = .ok ⟨[], maxSeq == localSeq⟩ := by
  rw [tally, hmax]

/-- C6 witness: the concrete tied tally, with the tie hypothesis discharged. -/
theorem tie_winner_follows_max_witness :
    tally 5 [mkMsg sampleUuid .Pong 5, mkMsg sampleUuid2 .Pong 5] = .ok ⟨[], (5 : Nat) == 5⟩ :=
  tie_winner_follows_max 5 5 [mkMsg sampleUuid .Pong 5, mkMsg sampleUuid2 .Pong 5] rfl
    (by rfl)

/-- C7 counterexample: with the oracle saying the stop event would win the
collection-window wait (`t2 = false`), the claim demands the round be
abandoned and the loop return cleanly; instead the loop terminates with the
`AttributeError` raised by the Ping publication that precedes the window —
the window wait is never reached. -/
theorem stop_during_window_no_clean_return :
    routine_election 1 [⟨true, false, [], []⟩] ⟨[], false⟩ =
      (⟨[], false⟩, some attributeError) ∧
    (some attributeError : Option (List Char)) ≠ none := by
  refine ⟨rfl, ?_⟩
  intro h
  exact Option.noConfusion h

/-- C7 (amended): if the stop event fires during the interval wait, the round
is abandoned and the election loop returns cleanly without mutating
`Outcome.winner`.  The collection window is never reached — the Ping
publication before it raises `AttributeError` — so a stop during the
collection window cannot be observed; when the interval wait elapses the loop
instead terminates with that error, also without mutating `Outcome.winner`. -/
theorem stop_during_wait_abandons (localSeq : Nat) (e : RoundEnv)
    (rest : List RoundEnv) (st : ElectoralState)
    (_h : e.t1 = false ∨ e.t2 = false) :
    (routine_election localSeq (e :: rest) st).1.winner = st.winner ∧
    ((routine_election localSeq (e :: rest) st).2 = none ↔ e.t1 = false) := by
  rcases ht1 : e.t1 with _ | _
  · simp [routine_election, electionRound, ht1]
  · simp [routine_election, electionRound, ht1, notifyCall_eq]

/-- C7 witness: the stop event firing during the interval wait of the first
round returns cleanly with the previous `winner` value intact. -/
theorem stop_during_wait_abandons_witness :
    (routine_election 3 [⟨false, true, [], []⟩] ⟨[], true⟩).1.winner =
      (⟨[], true⟩ : ElectoralState).winner ∧
    ((routine_election 3 [⟨false, true, [], []⟩] ⟨[], true⟩).2 = none ↔
      (⟨false, true, [], []⟩ : RoundEnv).t1 = false) :=
  stop_during_wait_abandons 3 ⟨false, true, [], []⟩ [] ⟨[], true⟩ (Or.inl rfl)

/-- C8: a decoded inbound message whose namespace differs from the local one
is dropped after the warning: the electoral state (ballots and winner) is
unchanged, no Pong is scheduled, and no error is raised. -/
theorem namespace_mismatch_dropped (nspace : List Char) (localSeq : Nat)
    (st : ElectoralState) (payload : JObj) (parsed : MessageExchange)
    (hdec : decodeMessage payload = some parsed) (hns : parsed.nspace ≠ nspace) :
    parse_and_dispatch nspace localSeq st payload = ⟨st, [], none⟩ := by
  rw [parse_and_dispatch, hdec]
  simp [hns]

/-- C8 witness: a concrete payload tagged namespace `ns` delivered to a
coordinator whose namespace is `other` leaves the state untouched. -/
theorem namespace_mismatch_dropped_witness :
    parse_and_dispatch ['o', 't', 'h', 'e', 'r'] 1 ⟨[], false⟩
      (encodeMessage (mkMsg sampleUuid .Pong 3)) = ⟨⟨[], false⟩, [], none⟩ :=
  namespace_mismatch_dropped ['o', 't', 'h', 'e', 'r'] 1 ⟨[], false⟩
    (encodeMessage (mkMsg sampleUuid .Pong 3)) (mkMsg sampleUuid .Pong 3)
    (decode_encode (mkMsg sampleUuid .Pong 3)) (by decide)

/-- C9: decoding the canonical JSON encoding of any valid `MessageExchange`
(UUID identifiers, aware timestamp, type `Ping` or `Pong`) yields the
original message. -/
theorem message_roundtrip (m : MessageExchange) :
    decodeMessage (encodeMessage m) = some m :=
  decode_encode m

/-- C10: under the scoped entry, whenever the channel listener is registered
(in any prefix of the entry steps) the local sequence has already been set to
the counter value `v >= 1`; the publication of the initial Ping is attempted
only after that (it raises `AttributeError`, so nothing is published and the
entry aborts — with the listener already registered and the sequence in
place); and with a positive local sequence the ping handler's internal
assertion cannot fail for any Ping of sequence at most `v` — the handler gets
past the assert and fails only at the later attribute lookup. -/
theorem entry_sequence_before_listener (v : Nat) (hv : 1 ≤ v) :
    (∀ k, Callback.lambdaWrapper ∈
        ((runEntrySteps ((coordinatorEnterSteps v).take k) initialCoordState).1).listeners →
      ((runEntrySteps ((coordinatorEnterSteps v).take k) initialCoordState).1).seq = v) ∧
    (runEntrySteps (coordinatorEnterSteps v) initialCoordState).1.seq = v ∧
    (runEntrySteps (coordinatorEnterSteps v) initialCoordState).1.published = [] ∧
    (runEntrySteps (coordinatorEnterSteps v) initialCoordState).2 = some attributeError ∧
    (∀ q, q ≤ v → handle_ping v q = .error attributeError ∧
      handle_ping v q ≠ .error assertionError) := by
  refine ⟨?_, rfl, rfl, rfl, ?_⟩
  · intro k
    match k with
    | 0 => intro h; simp [runEntrySteps, coordinatorEnterSteps, initialCoordState] at h
    | 1 => intro h; simp [runEntrySteps, coordinatorEnterSteps, initialCoordState, applyEntryStep] at h
    | 2 => intro h; simp [runEntrySteps, coordinatorEnterSteps, initialCoordState, applyEntryStep] at h
    | 3 => intro _; rfl
    | n + 4 =>
      intro _
      have : (coordinatorEnterSteps v).take (n + 4) = coordinatorEnterSteps v :=
        List.take_of_length_le (by simp [coordinatorEnterSteps])
      rw [this]
      rfl
  · intro q hq
    have he : handle_ping v q = .error attributeError := by
      rw [handle_ping, if_pos (show v ≥ q from hq), if_pos (show v > 0 by omega), notifyCall_eq]
    refine ⟨he, ?_⟩
    rw [he]
    intro hcontra
    exact absurd (Except.error.inj hcontra) (by decide)

/-- C10 witness: with counter value 1 the sequence is in place before the
listener registration and the publish attempt, and the handler's assertion
never fails for a Ping of sequence at most 1. -/
theorem entry_sequence_before_listener_witness :
    (∀ k, Callback.lambdaWrapper ∈
        ((runEntrySteps ((coordinatorEnterSteps 1).take k) initialCoordState).1).listeners →
      ((runEntrySteps ((coordinatorEnterSteps 1).take k) initialCoordState).1).seq = 1) ∧
    (runEntrySteps (coordinatorEnterSteps 1) initialCoordState).1.seq = 1 ∧
    (runEntrySteps (coordinatorEnterSteps 1) initialCoordState).1.published = [] ∧
    (runEntrySteps (coordinatorEnterSteps 1) initialCoordState).2 = some attributeError ∧
    (∀ q, q ≤ 1 → handle_ping 1 q = .error attributeError ∧
      handle_ping 1 q ≠ .error assertionError) :=
  entry_sequence_before_listener 1 (le_refl 1)

end Notifelect
